import Mathlib

set_option maxHeartbeats 1000000

/-!
Verification development for the incremental Telegram chat downloader
(`telegram_downloader_incremental_v2.py`).  The Python program is shallowly
embedded: message records, the progress store, the media-inventory tracker,
the streaming JSON sink, the Phase-1 batch fetch loop (with flood-wait
retries, periodic progress saves, the `finally` block) and the Phase-2 media
loop are all modelled as executable Lean functions, and the behavioural
claims about the program are proved or refuted against this model.
-/

/-- A message as delivered by the remote iterator: its identifier and whether
it carries media.  This embeds the two fields of a telethon `Message` that
drive the downloader's control flow (`message.id`, `bool(message.media)`). -/
structure Msg where
  id : Nat
  has_media : Bool
deriving Repr, DecidableEq

/-- The progress record persisted as `<base>_progress.json` (source
`load_progress`/`save_progress`).  `text_complete` models presence of the
optional `'text_complete': True` key (absent is modelled as `false`). -/
structure ProgressData where
  last_message_id : Nat
  total_downloaded : Nat
  media_downloaded : Bool
  messages_with_media : List Nat
  text_complete : Bool
deriving Repr, DecidableEq

/-- The zero-valued record returned by `load_progress` when no progress file
exists (source line 172). -/
def zeroProgress : ProgressData :=
  { last_message_id := 0, total_downloaded := 0, media_downloaded := false,
    messages_with_media := [], text_complete := false }

/-- `load_progress` (source lines 163-172): if the file exists, return its
record and repopulate `self.messages_with_media` from it; otherwise return
the zero record and leave the in-memory tracker untouched.  The pair is
(returned record, tracker after the call). -/
def load_progress (file : Option ProgressData) (tracker : List Nat) :
    ProgressData × List Nat :=
  match file with
  | some d => (d, d.messages_with_media)
  | none => (zeroProgress, tracker)

/-- `save_progress` (source lines 174-179): before serialising, the record's
`messages_with_media` field is overwritten with the current in-memory
tracker; the result is the record actually persisted. -/
def save_progress (tracker : List Nat) (progress : ProgressData) : ProgressData :=
  { progress with messages_with_media := tracker }

/-- The media-inventory update performed by `_parse_message` (source lines
206-216): when the message has media and tracking is on, append the id to
`self.messages_with_media` only if it is absent. -/
def parse_message_track (tracker : List Nat) (m : Msg) (tm : Bool) : List Nat :=
  if m.has_media && (tm && !(tracker.contains m.id)) then tracker ++ [m.id]
  else tracker

/-- Evaluating a decimal-digit token as `int(...)` does: `none` when some
character is not a digit (Python raises `ValueError` there). -/
def digitsVal (cs : List Char) : Option Nat :=
  cs.foldl (fun acc c =>
    match acc with
    | none => none
    | some n => if c.isDigit then some (n * 10 + (c.toNat - 48)) else none) (some 0)

/-- Parsing a media filename into a message id (source lines 745-752): only
filenames containing `'_'` are considered, the token before the first `'_'`
(i.e. `filename.split('_')[0]`) is parsed as an integer, and malformed
tokens are silently skipped. -/
def parseMediaId (filename : String) : Option Nat :=
  let cs := filename.toList
  if cs.contains '_' then
    let token := cs.takeWhile (fun c => !(c == '_'))
    if token.isEmpty then none else digitsVal token
  else none

/-- The `existing_media` set built by scanning the media directory (source
lines 743-752), kept as a list (only membership is used). -/
def existingMediaIds (files : List String) : List Nat :=
  files.filterMap parseMediaId

/-- The remaining-work computation (source line 757):
`[msg_id for msg_id in self.messages_with_media if msg_id not in existing_media]`. -/
def media_to_download (tracker : List Nat) (files : List String) : List Nat :=
  tracker.filter (fun i => !((existingMediaIds files).contains i))

/-- Outcome of one Phase-2 item: the re-fetch + `download_media` call
succeeds, the message no longer has media, a `FloodWaitError` with a wait
time is raised, or another exception is raised. -/
inductive P2Outcome where
  | success
  | noMedia
  | flood (seconds : Nat)
  | err
deriving Repr, DecidableEq

/-- Trace of the Phase-2 per-item loop: ids attempted (one `get_messages`
call each), ids whose media was downloaded, flood sleeps performed, and the
`media_downloaded` success counter. -/
structure P2Result where
  attempts : List Nat
  downloaded : List Nat
  sleeps : List Nat
  counter : Nat
deriving Repr, DecidableEq

/-- One iteration of the Phase-2 loop body (source lines 766-786): the item
is attempted once; on success the counter is incremented; a flood wait only
sleeps; any failure is logged and the loop proceeds to the next item. -/
def p2Step (outcome : Nat → P2Outcome) (r : P2Result) (i : Nat) : P2Result :=
  let r1 : P2Result := { r with attempts := r.attempts ++ [i] }
  match outcome i with
  | P2Outcome.success =>
      { r1 with downloaded := r1.downloaded ++ [i], counter := r1.counter + 1 }
  | P2Outcome.noMedia => r1
  | P2Outcome.flood w => { r1 with sleeps := r1.sleeps ++ [w] }
  | P2Outcome.err => r1

/-- The whole Phase-2 per-item loop over the remaining work list. -/
def phase2Process (outcome : Nat → P2Outcome) (todo : List Nat) : P2Result :=
  todo.foldl (p2Step outcome) { attempts := [], downloaded := [], sleeps := [], counter := 0 }

/-- Result of the media phase (source lines 736-800): the loop trace plus
the progress saves it performed and the final in-memory progress record. -/
structure P2Run where
  attempts : List Nat
  downloaded : List Nat
  sleeps : List Nat
  saves : List ProgressData
  progressVar : ProgressData
deriving Repr, DecidableEq

/-- Marking media as fully downloaded and saving (source lines 761-762 and
798-800). -/
def phase2FlagTrue (tracker : List Nat) (pv : ProgressData) : ProgressData :=
  save_progress tracker { pv with media_downloaded := true }

/-- The media phase body once the user opted in (source lines 736-800):
compute the remaining set, handle the all-done shortcut, otherwise run the
per-item loop and mark `media_downloaded` only if every item succeeded. -/
def runPhase2 (outcome : Nat → P2Outcome) (files : List String)
    (tracker : List Nat) (pv : ProgressData) : P2Run :=
  let todo := media_to_download tracker files
  if todo.isEmpty then
    let r := phase2FlagTrue tracker pv
    { attempts := [], downloaded := [], sleeps := [], saves := [r], progressVar := r }
  else
    let res := phase2Process outcome todo
    if res.counter = todo.length then
      let r := phase2FlagTrue tracker pv
      { attempts := res.attempts, downloaded := res.downloaded, sleeps := res.sleeps,
        saves := [r], progressVar := r }
    else
      { attempts := res.attempts, downloaded := res.downloaded, sleeps := res.sleeps,
        saves := [], progressVar := pv }

/-- The sink formats of `setup_output_files`. -/
inductive SinkFmt where
  | csv
  | json
  | html
deriving Repr, DecidableEq

/-- Which formats a `save_format` value selects (source lines 235, 241, 247):
csv for `csv|both|all`, json for `json|both|all`, html for `html|all`. -/
def fmtSelected (save_format : String) (f : SinkFmt) : Bool :=
  match f with
  | SinkFmt.csv => save_format == "csv" || save_format == "both" || save_format == "all"
  | SinkFmt.json => save_format == "json" || save_format == "both" || save_format == "all"
  | SinkFmt.html => save_format == "html" || save_format == "all"

/-- The order in which `setup_output_files` opens the sinks. -/
def sinkOrder : List SinkFmt := [SinkFmt.csv, SinkFmt.json, SinkFmt.html]

/-- One `open` in `setup_output_files` (source lines 233-251).  The
accumulator is (sinks opened so far, an exception has escaped).  There is no
try/except in the source, so once an open has raised, the remaining
statements of the method do not execute. -/
def setupStep (save_format : String) (ok : SinkFmt → Bool)
    (acc : List SinkFmt × Bool) (f : SinkFmt) : List SinkFmt × Bool :=
  if acc.2 then acc
  else if fmtSelected save_format f then
    if ok f then (acc.1 ++ [f], false) else (acc.1, true)
  else acc

/-- `setup_output_files` with fallible opens: returns the list of sinks
actually opened and whether an open failure escaped the method. -/
def setup_output_files (save_format : String) (ok : SinkFmt → Bool) :
    List SinkFmt × Bool :=
  sinkOrder.foldl (setupStep save_format ok) ([], false)

/-- An environment in which every sink opens fine except the CSV one. -/
def okAllButCsv : SinkFmt → Bool :=
  fun f => match f with
  | SinkFmt.csv => false
  | _ => true

/-- The incremental JSON write (source lines 380-385): every record except
the one flagged first is preceded by `",\n"`. -/
def write_json (content : String) (record : String) (is_first : Bool) : String :=
  if is_first then content ++ record else content ++ ",\n" ++ record

/-- Writing a record through the JSON sink when it is open (`self.json_file`
is not None), i.e. source lines 381-385 guarded by the sink's presence. -/
def write_json_sink (jsonC : Option String) (record : String) (is_first : Bool) :
    Option String :=
  jsonC.map (fun c => write_json c record is_first)

/-- Messages with id below the offset, newest first: the records
`iter_messages(channel, limit, offset_id)` draws from.  `offset_id = 0`
means "start from the newest message" (fresh job). -/
def availMsgs (msgs : List Msg) (offset_id : Nat) : List Msg :=
  if offset_id = 0 then msgs else msgs.filter (fun m => m.id < offset_id)

/-- One batch request (source lines 627-632): up to `limit` messages older
than `offset_id`, in decreasing-id order. -/
def fetchBatch (msgs : List Msg) (limit : Nat) (offset_id : Nat) : List Msg :=
  (availMsgs msgs offset_id).take limit

/-- The mutable state of the Phase-1 fetch loop (source lines 606-718),
plus the traces the claims talk about.  `progressVar` is the Python local
`progress` (reassigned only at save points); `batch_count` is `none` while
the Python local of that name is still undefined; `floods` is the schedule
of pending fetch outcomes (`some w` = the next fetch attempt raises
`FloodWaitError(w)`); `finished` records that the loop exited via `break`
(rather than being interrupted by fuel exhaustion). -/
structure LoopState where
  tracker : List Nat
  offset_id : Nat
  total : Nat
  is_first : Bool
  jsonC : Option String
  progressVar : ProgressData
  saves : List ProgressData
  written : List Nat
  sleeps : List Nat
  floods : List (Option Nat)
  batch_count : Option Nat
  finished : Bool
deriving Repr, DecidableEq

/-- The progress dict built inside the loop (source lines 655-660 and
673-678): current offset and total, `media_downloaded: False`, the tracker,
and no `text_complete` key. -/
def mkBatchRecord (s : LoopState) : ProgressData :=
  { last_message_id := s.offset_id, total_downloaded := s.total,
    media_downloaded := false, messages_with_media := s.tracker,
    text_complete := false }

/-- A `save_progress` call from inside the loop: the record is persisted
(appended to `saves`) and the Python local `progress` now refers to it. -/
def doSave (s : LoopState) : LoopState :=
  let r := save_progress s.tracker (mkBatchRecord s)
  { s with saves := s.saves ++ [r], progressVar := r }

/-- Processing one yielded message (source lines 634-661): parse (tracking
media), write to the sinks, bump the counters, commit the offset, and save
progress every 25 records of the batch. -/
def stepMsg (ser : Msg → String) (acc : LoopState × Nat) (m : Msg) :
    LoopState × Nat :=
  let s := acc.1
  let bc := acc.2 + 1
  let s1 : LoopState :=
    { s with tracker := parse_message_track s.tracker m true,
             jsonC := write_json_sink s.jsonC (ser m) s.is_first,
             is_first := false,
             written := s.written ++ [m.id],
             total := s.total + 1,
             offset_id := m.id }
  if bc % 25 = 0 then (doSave s1, bc) else (s1, bc)

/-- Static inputs of the fetch loop. -/
structure Ctx where
  msgs : List Msg
  ser : Msg → String
  batch_size : Nat
  max_messages : Option Nat

/-- The cap test `if max_messages and total_downloaded >= max_messages`
(source line 615); `max_messages = 0` is falsy in Python. -/
def capReached (max_messages : Option Nat) (total : Nat) : Bool :=
  match max_messages with
  | none => false
  | some m => if m = 0 then false else decide (m ≤ total)

/-- `current_batch_size` (source lines 618-620). -/
def currentBatchSize (batch_size : Nat) (max_messages : Option Nat) (total : Nat) : Nat :=
  match max_messages with
  | none => batch_size
  | some m => if m = 0 then batch_size else min batch_size (m - total)

/-- The `while True` fetch loop (source lines 614-684), fuel-indexed.  Each
iteration: check the cap, reset `batch_count`, attempt a fetch (consuming
one entry of the flood schedule; a `FloodWaitError` sleeps and `continue`s,
i.e. the next attempt re-issues the request with the same `offset_id`),
process the batch, exit on an empty batch, otherwise save progress and loop.
Fuel exhaustion models a user interrupt between requests. -/
def phase1Loop (ctx : Ctx) : Nat → LoopState → LoopState
  | 0, s => s
  | Nat.succ fuel, s =>
    if capReached ctx.max_messages s.total then { s with finished := true }
    else
      match s.floods with
      | some w :: rest =>
          phase1Loop ctx fuel
            { s with floods := rest, sleeps := s.sleeps ++ [w], batch_count := some 0 }
      | other =>
          let rest : List (Option Nat) := match other with | [] => [] | _ :: r => r
          let batch := fetchBatch ctx.msgs
            (currentBatchSize ctx.batch_size ctx.max_messages s.total) s.offset_id
          let acc := batch.foldl (stepMsg ctx.ser)
            ({ s with floods := rest, batch_count := some 0 }, 0)
          let s2 := { acc.1 with batch_count := some acc.2 }
          if acc.2 = 0 then { s2 with finished := true }
          else phase1Loop ctx fuel (doSave s2)

/-- The final save of Phase 1's `finally` block (source lines 714-718):
`text_complete` is set only under its condition, `media_downloaded` is set
to `not download_media_later`, and the Python local `progress` (the last
record loaded or saved) is persisted with those flags. -/
def finSave (dml : Bool) (setTc : Bool) (s : LoopState) : LoopState :=
  let p1 := if setTc then { s.progressVar with text_complete := true } else s.progressVar
  let p2 := { p1 with media_downloaded := !dml }
  let r := save_progress s.tracker p2
  { s with saves := s.saves ++ [r], progressVar := r }

/-- The `finally` block's progress bookkeeping (source lines 714-718).  If
the loop never reached `batch_count = 0` (line 624) — e.g. it broke on the
cap before the first iteration — evaluating `batch_count == 0` raises
`NameError`, so the final save does not happen and the exception escapes;
the returned flag is that crash.  (`text_download_complete` is always false
on this path, since Phase 1 only runs when it is.) -/
def finallyBlock (dml : Bool) (tdc : Bool) (s : LoopState) : LoopState × Bool :=
  if tdc then (finSave dml true s, false)
  else
    match s.batch_count with
    | none => (s, true)
    | some bc => (finSave dml (bc = 0) s, false)

/-- Per-run inputs of `download_messages_incremental` that the model keeps
explicit: configuration, the fuel/flood schedule standing for interrupts and
rate limits, the media-download prompt answer, the media-directory listing,
and the per-item Phase-2 outcomes. -/
structure RunParams where
  save_format : String
  download_media_later : Bool
  batch_size : Nat
  max_messages : Option Nat
  resume : Bool
  fuel : Nat
  floods : List (Option Nat)
  download_media_now : Bool
  mediaFiles : List String
  outcome : Nat → P2Outcome

/-- Observable trace of one `download_messages_incremental` run. -/
structure RunResult where
  finalStore : Option ProgressData
  saves : List ProgressData
  written : List Nat
  jsonAtExit : Option String
  jsonFinal : Option String
  sleeps : List Nat
  crashed : Bool
  tracker : List Nat
  phase2Entered : Bool
  progressAtPhase2 : ProgressData
  mediaAttempts : List Nat
  mediaDone : List Nat

/-- Whether the `save_format` opens the JSON sink (source line 241). -/
def jsonActiveFor (save_format : String) : Bool :=
  save_format == "json" || save_format == "both" || save_format == "all"

/-- The loop state right after `setup_output_files` (source lines 606-611):
offset and total from the loaded record, `is_first = (total_downloaded ==
0)`, and a JSON file holding exactly `"[\n"` when that sink is selected. -/
def initLoopState (p0 : ProgressData) (tracker0 : List Nat) (jsonActive : Bool)
    (floods : List (Option Nat)) : LoopState :=
  { tracker := tracker0, offset_id := p0.last_message_id,
    total := p0.total_downloaded, is_first := p0.total_downloaded == 0,
    jsonC := if jsonActive then some "[\n" else none,
    progressVar := p0, saves := [], written := [], sleeps := [],
    floods := floods, batch_count := none, finished := false }

/-- The Phase-2 entry condition (source line 727): media download deferred,
non-empty inventory, and `media_downloaded` not yet set.  It does not
consult `text_complete`. -/
def phase2Condition (dml : Bool) (tracker : List Nat) (pv : ProgressData) : Bool :=
  dml && !tracker.isEmpty && !pv.media_downloaded

/-- Phase 2 as reached from the orchestrator (source lines 727-800): the
condition gates the offer, and the per-item work happens only when the
operator answers yes. -/
def phase2Part (p : RunParams) (tracker : List Nat) (pv : ProgressData) :
    Bool × P2Run :=
  let cond := phase2Condition p.download_media_later tracker pv
  if cond && p.download_media_now then
    (cond, runPhase2 p.outcome p.mediaFiles tracker pv)
  else
    (cond, { attempts := [], downloaded := [], sleeps := [], saves := [],
             progressVar := pv })

/-- Assembling a run's trace from the post-Phase-1 state (or the loaded
state when Phase 1 was skipped) and the media phase. -/
def assembleRun (baseStore : Option ProgressData) (saves1 : List ProgressData)
    (written : List Nat) (jsonAtExit jsonFinal : Option String)
    (sleeps1 : List Nat) (tracker : List Nat) (pv : ProgressData)
    (p : RunParams) : RunResult :=
  let ph2 := phase2Part p tracker pv
  let allSaves := saves1 ++ ph2.2.saves
  { finalStore := match allSaves.getLast? with
      | some r => some r
      | none => baseStore,
    saves := allSaves, written := written,
    jsonAtExit := jsonAtExit, jsonFinal := jsonFinal,
    sleeps := sleeps1 ++ ph2.2.sleeps, crashed := false, tracker := tracker,
    phase2Entered := ph2.1, progressAtPhase2 := pv,
    mediaAttempts := ph2.2.attempts, mediaDone := ph2.2.downloaded }

/-- The progress file this run's saves overwrite: resuming keeps the job's
file, not resuming mints a fresh one (source lines 574-581). -/
def baseStoreOf (resume : Bool) (store : Option ProgressData) : Option ProgressData :=
  if resume then store else none

/-- Line 582: `progress = self.load_progress(...) if resume else {...}`. -/
def loadOrInit (resume : Bool) (store : Option ProgressData)
    (trackerInit : List Nat) : ProgressData × List Nat :=
  if resume then load_progress store trackerInit else (zeroProgress, trackerInit)

/-- `download_messages_incremental` (source lines 529-806) over one job:
load or initialise progress, run Phase 1 unless media is done or the
low-id heuristic says the text is complete, run the `finally` block, then
the media phase.  `store` is the job's progress file content, `trackerInit`
the in-memory inventory at call time (empty for a fresh process). -/
def download_messages_incremental (msgs : List Msg) (ser : Msg → String)
    (store : Option ProgressData) (trackerInit : List Nat) (p : RunParams) :
    RunResult :=
  let baseStore := baseStoreOf p.resume store
  let lp := loadOrInit p.resume store trackerInit
  let p0 := lp.1
  let tracker0 := lp.2
  let tdc := decide (p0.last_message_id ≤ 10) && decide (0 < p0.total_downloaded)
  if !p0.media_downloaded && !tdc then
    let ctx : Ctx := { msgs := msgs, ser := ser, batch_size := p.batch_size,
                       max_messages := p.max_messages }
    let s0 := initLoopState p0 tracker0 (jsonActiveFor p.save_format) p.floods
    let s1 := phase1Loop ctx p.fuel s0
    let jsonAtExit := s1.jsonC
    let jsonFinal := s1.jsonC.map (fun c => c ++ "\n]")
    let fb := finallyBlock p.download_media_later false s1
    let s2 := fb.1
    if fb.2 then
      { finalStore := match s2.saves.getLast? with
          | some r => some r
          | none => baseStore,
        saves := s2.saves, written := s2.written,
        jsonAtExit := jsonAtExit, jsonFinal := jsonFinal,
        sleeps := s2.sleeps, crashed := true, tracker := s2.tracker,
        phase2Entered := false, progressAtPhase2 := s2.progressVar,
        mediaAttempts := [], mediaDone := [] }
    else
      assembleRun baseStore s2.saves s2.written jsonAtExit jsonFinal s2.sleeps
        s2.tracker s2.progressVar p
  else
    assembleRun baseStore [] [] none none [] tracker0 p0 p

/-- Accumulated observations of a sequence of runs against the same job. -/
structure ManyResult where
  allSaves : List ProgressData
  store : Option ProgressData

/-- A sequence of process runs against the same job: each run starts with an
empty in-memory tracker and the progress file left by the previous run. -/
def runMany (msgs : List Msg) (ser : Msg → String) :
    List RunParams → Option ProgressData → ManyResult
  | [], st => { allSaves := [], store := st }
  | p :: ps, st =>
    let r := download_messages_incremental msgs ser st [] p
    let rest := runMany msgs ser ps r.finalStore
    { allSaves := r.saves ++ rest.allSaves, store := rest.store }

/-- The monotonicity relation claimed between consecutive saved records:
`total_downloaded` never decreases and `last_message_id` never increases. -/
def claimedMonotoneB : List ProgressData → Bool
  | a :: b :: rest =>
      (decide (a.total_downloaded ≤ b.total_downloaded) &&
        decide (b.last_message_id ≤ a.last_message_id)) &&
      claimedMonotoneB (b :: rest)
  | _ => true

/-- The amended monotonicity relation: `total_downloaded` never decreases,
and `last_message_id` never increases except out of a save that predates any
committed message (`last_message_id = 0`). -/
def Rrel (a b : ProgressData) : Prop :=
  a.total_downloaded ≤ b.total_downloaded ∧
    (a.last_message_id = 0 ∨ b.last_message_id ≤ a.last_message_id)

/-- The record a progress file denotes: the zero record when absent. -/
def storeRec (st : Option ProgressData) : ProgressData :=
  match st with
  | some d => d
  | none => zeroProgress

/-- The last progress record saved, or the loaded one if none was. -/
def lastSave (root : ProgressData) (l : List ProgressData) : ProgressData :=
  match l.getLast? with
  | some r => r
  | none => root

/-- The record ids Phase 1 is supposed to write when started at a given
offset and total: everything the source still holds below the offset, up to
the remaining message cap. -/
def expectedWritten (msgs : List Msg) (offset_id total : Nat)
    (max_messages : Option Nat) : List Nat :=
  let avail := availMsgs msgs offset_id
  let sel : List Msg :=
    match max_messages with
    | none => avail
    | some m => if m = 0 then avail else avail.take (m - total)
  sel.map (fun x => x.id)

/-- A record serialisation that ignores the message (used where the JSON
sink is closed and the serialised text is irrelevant). -/
def serEmpty : Msg → String := fun _ => ""

/-- A concrete record serialisation for the JSON-sink claims: message `i`
serialises to `"r<i>"` (the claims treat record texts as opaque). -/
def serR : Msg → String := fun m => "r" ++ toString m.id

/-- One remote message with id 100 and no media. -/
def msgsC1 : List Msg := [{ id := 100, has_media := false }]

/-- A progress file of a job interrupted mid-Phase-1: 30 records written,
resume offset 500. -/
def storeC1 : Option ProgressData :=
  some { last_message_id := 500, total_downloaded := 30, media_downloaded := false,
         messages_with_media := [], text_complete := false }

/-- Run configuration with the JSON sink selected and no cap. -/
def paramsC1 : RunParams :=
  { save_format := "json", download_media_later := true, batch_size := 50,
    max_messages := none, resume := true, fuel := 3, floods := [],
    download_media_now := false, mediaFiles := [],
    outcome := fun _ => P2Outcome.success }

/-- Three remote messages, the newest one carrying media. -/
def msgsC2 : List Msg :=
  [{ id := 100, has_media := true }, { id := 99, has_media := false },
   { id := 98, has_media := false }]

/-- A fresh run capped at 2 messages (batch size 2) that then accepts the
media-download offer. -/
def paramsC2 : RunParams :=
  { save_format := "csv", download_media_later := true, batch_size := 2,
    max_messages := some 2, resume := true, fuel := 3, floods := [],
    download_media_now := true, mediaFiles := [],
    outcome := fun _ => P2Outcome.success }

/-- One remote message with id 100. -/
def msgsC4 : List Msg := [{ id := 100, has_media := false }]

/-- A fresh run whose first fetch attempt hits a flood wait and which is
interrupted (fuel exhausted) during that wait. -/
def pC4a : RunParams :=
  { save_format := "csv", download_media_later := true, batch_size := 1,
    max_messages := none, resume := true, fuel := 1, floods := [some 3],
    download_media_now := false, mediaFiles := [],
    outcome := fun _ => P2Outcome.success }

/-- A resumed run that completes Phase 1 normally. -/
def pC4b : RunParams :=
  { save_format := "csv", download_media_later := true, batch_size := 1,
    max_messages := none, resume := true, fuel := 4, floods := [],
    download_media_now := false, mediaFiles := [],
    outcome := fun _ => P2Outcome.success }

/-- A progress record at the start of a Phase-2 run with items 10 and 20
tracked and media not yet downloaded. -/
def pvC3 : ProgressData :=
  { last_message_id := 5, total_downloaded := 2, media_downloaded := false,
    messages_with_media := [10, 20], text_complete := true }

/-- Phase-2 outcomes where fetching item 10 raises `FloodWaitError(7)` and
everything else succeeds. -/
def outcomeC3 : Nat → P2Outcome :=
  fun i => if i = 10 then P2Outcome.flood 7 else P2Outcome.success

/-- The invariant the Phase-1 loop maintains about its saved records:
the Python local `progress` is the last record saved (or the loaded one),
the committed total never exceeds the loop's counter, the current offset
stays positive and below the last saved offset once one exists, and the
saved records form an `Rrel`-chain out of the loaded record. -/
def LoopInv (root : ProgressData) (s : LoopState) : Prop :=
  s.progressVar = lastSave root s.saves ∧
  (lastSave root s.saves).total_downloaded ≤ s.total ∧
  ((lastSave root s.saves).last_message_id = 0 ∨
    (0 < s.offset_id ∧ s.offset_id ≤ (lastSave root s.saves).last_message_id)) ∧
  List.Chain' Rrel (root :: s.saves)

/-- C5: the remaining-work computation is exactly the set difference of the
tracked media identifiers and the identifiers recovered from the on-disk
media filenames; in particular tracked `[10, 20, 30]` minus an on-disk scan
yielding `{20}` is exactly `{10, 30}`. -/
theorem c5_remaining_set_difference :
    (∀ (tracker : List Nat) (files : List String),
        (media_to_download tracker files).toFinset =
          tracker.toFinset \ (existingMediaIds files).toFinset) ∧
    media_to_download [10, 20, 30] ["20_20250904_141300.mp4"] = [10, 30] := by
  constructor
  · intro tracker files
    ext x
    simp [media_to_download, List.mem_filter]
  · decide

/-- C7: loading progress with no existing file yields the zero-valued record
(`last_message_id = 0`, `total_downloaded = 0`, `media_downloaded = false`,
`messages_with_media = []`) and leaves the tracker alone; loading an
existing file returns the persisted record and repopulates the in-memory
media inventory tracker from its `messages_with_media` field. -/
theorem c7_load_progress_contract :
    (∀ tracker : List Nat, load_progress none tracker = (zeroProgress, tracker)) ∧
    zeroProgress.last_message_id = 0 ∧ zeroProgress.total_downloaded = 0 ∧
    zeroProgress.media_downloaded = false ∧ zeroProgress.messages_with_media = [] ∧
    (∀ (d : ProgressData) (tracker : List Nat),
        load_progress (some d) tracker = (d, d.messages_with_media)) :=
  ⟨fun _ => rfl, rfl, rfl, rfl, rfl, fun _ _ => rfl⟩

/-- C9: recording the same media-bearing message id a second time leaves the
tracked inventory unchanged — the record-if-new update of `_parse_message`
is idempotent. -/
theorem c9_record_if_new_idempotent (tracker : List Nat) (m : Msg) (tm : Bool) :
    parse_message_track (parse_message_track tracker m tm) m tm =
      parse_message_track tracker m tm := by
  by_cases hm : m.has_media <;> by_cases ht : tm <;>
    by_cases hc : m.id ∈ tracker <;>
    simp [parse_message_track, hm, ht, hc]

/-- C10: `save_progress` always persists the current in-memory tracker as
the record's `messages_with_media` field, overwriting whatever the caller
put there, while keeping the caller's other fields; reloading after the
save hands that tracker back. -/
theorem c10_save_progress_inventory (tracker : List Nat) (p : ProgressData)
    (t0 : List Nat) :
    (save_progress tracker p).messages_with_media = tracker ∧
    (save_progress tracker p).last_message_id = p.last_message_id ∧
    (save_progress tracker p).total_downloaded = p.total_downloaded ∧
    (save_progress tracker p).media_downloaded = p.media_downloaded ∧
    (load_progress (some (save_progress tracker p)) t0).2 = tracker :=
  ⟨rfl, rfl, rfl, rfl, rfl⟩

/-- C8 counterexample: with `save_format = "all"`, the JSON sink is selected
and would open fine, yet when the CSV open raises, `setup_output_files`
aborts with nothing opened — the JSON (and HTML) sinks are never opened, so
sink-open failures are not independent. -/
theorem c8_counterexample :
    fmtSelected "all" SinkFmt.json = true ∧ okAllButCsv SinkFmt.json = true ∧
    setup_output_files "all" okAllButCsv = ([], true) := by
  decide

/-- C8 amended: `setup_output_files` has no per-format exception handling,
so whenever the CSV sink is selected and its open fails, the exception
escapes the method and no sink at all (in particular no later-selected JSON
or HTML sink) is opened. -/
theorem c8_amended_sink_abort (save_format : String) (ok : SinkFmt → Bool)
    (h1 : fmtSelected save_format SinkFmt.csv = true)
    (h2 : ok SinkFmt.csv = false) :
    setup_output_files save_format ok = ([], true) := by
  simp [setup_output_files, sinkOrder, setupStep, h1, h2]

/-- C8 witness: the amended statement applied to `save_format = "all"` with
only the CSV open failing. -/
theorem c8_witness :
    fmtSelected "all" SinkFmt.csv = true ∧ okAllButCsv SinkFmt.csv = false ∧
    setup_output_files "all" okAllButCsv = ([], true) :=
  ⟨by decide, by decide, c8_amended_sink_abort "all" okAllButCsv (by decide) (by decide)⟩

/-- C1: the JSON-sink prefix contract fails for resumed jobs.  A job resumed
with a saved `total_downloaded = 30` restarts its JSON file fresh, yet
`is_first = (total_downloaded == 0)` is false, so the run's first record is
preceded by the `",\n"` separator: the file reads `"[\n,\nr100"` (and after
`finalize()`, `"[\n,\nr100\n]"`, which is not a JSON array) instead of the
claimed `"[\nr100"`.  On a fresh job the claimed layout does hold, as the
last two conjuncts show. -/
theorem c1_json_resume_comma :
    (download_messages_incremental msgsC1 serR storeC1 [] paramsC1).jsonAtExit
        = some "[\n,\nr100" ∧
    (download_messages_incremental msgsC1 serR storeC1 [] paramsC1).jsonFinal
        = some "[\n,\nr100\n]" ∧
    (download_messages_incremental msgsC1 serR none [] paramsC1).jsonAtExit
        = some "[\nr100" ∧
    (download_messages_incremental
        [{ id := 100, has_media := false }, { id := 99, has_media := false }]
        serR none [] paramsC1).jsonAtExit
        = some "[\nr100,\nr99" := by
  refine ⟨rfl, rfl, rfl, rfl⟩

/-- C2 counterexample: a fresh run capped at `max_messages = 2` leaves
`text_complete` false (the cap break has `batch_count = 2`, so the finally
block does not set the flag), yet Phase 2 is entered and the attachment of
message 100 is downloaded — an attachment-download call occurs while
`text_complete` is false. -/
theorem c2_counterexample :
    (download_messages_incremental msgsC2 serEmpty none [] paramsC2).mediaAttempts
        = [100] ∧
    (download_messages_incremental msgsC2 serEmpty none []
        paramsC2).progressAtPhase2.text_complete = false ∧
    (download_messages_incremental msgsC2 serEmpty none [] paramsC2).saves.map
        (fun r => r.text_complete) = [false, false, false] := by
  refine ⟨by decide, by decide, by decide⟩

/-- C4 counterexample: run 1 is interrupted during its first flood wait, so
its `finally` block saves the loaded zero record (`last_message_id = 0`);
run 2 resumes and saves `last_message_id = 100` — the saved
`last_message_id` increases from 0 to 100 across a save/reload cycle, so
the claimed monotonicity fails on the code. -/
theorem c4_counterexample :
    claimedMonotoneB (runMany msgsC4 serEmpty [pC4a, pC4b] none).allSaves = false ∧
    (runMany msgsC4 serEmpty [pC4a, pC4b] none).allSaves.map
        (fun r => (r.last_message_id, r.total_downloaded))
      = [(0, 0), (100, 1), (100, 1)] := by
  refine ⟨by decide, by decide⟩

/-- C3 counterexample: in Phase 2, item 10's download raises
`FloodWaitError(7)`; the loop sleeps 7 seconds but then moves on to item 20
— item 10 is attempted exactly once (no retry of the identical request) and
its media is not downloaded in this run, i.e. a media item is skipped
because of a rate-limit signal. -/
theorem c3_counterexample :
    10 ∈ media_to_download [10, 20] [] ∧
    (runPhase2 outcomeC3 [] [10, 20] pvC3).sleeps = [7] ∧
    10 ∉ (runPhase2 outcomeC3 [] [10, 20] pvC3).downloaded ∧
    (runPhase2 outcomeC3 [] [10, 20] pvC3).attempts.count 10 = 1 ∧
    (runPhase2 outcomeC3 [] [10, 20] pvC3).progressVar.media_downloaded = false := by
  refine ⟨by decide, by decide, by decide, by decide, by decide⟩

/-- Characterisation of the Phase-2 per-item loop: every item is attempted
exactly once in order, the downloads are exactly the successful items, the
sleeps are exactly the signalled flood waits, and the counter counts the
successes. -/
theorem phase2Process_char (outcome : Nat → P2Outcome) :
    ∀ (todo : List Nat) (r : P2Result),
      todo.foldl (p2Step outcome) r =
        { attempts := r.attempts ++ todo,
          downloaded := r.downloaded ++
            todo.filter (fun i => outcome i == P2Outcome.success),
          sleeps := r.sleeps ++ todo.filterMap (fun i =>
            match outcome i with
            | P2Outcome.flood w => some w
            | _ => none),
          counter := r.counter +
            (todo.filter (fun i => outcome i == P2Outcome.success)).length }
  | [], r => by simp
  | i :: todo, r => by
      have ih := phase2Process_char outcome todo (p2Step outcome r i)
      rw [List.foldl_cons, ih]
      cases h : outcome i <;>
        simp [p2Step, h, List.filter_cons, List.filterMap_cons] <;>
        omega

/-- C6: at the end of a Phase-2 run, `media_downloaded` is set iff every
item of the remaining work set computed at phase start succeeded (the empty
remaining set included); a failed item is skipped while the loop continues,
so the downloads are exactly the successful items, and any failure leaves
`media_downloaded` false. -/
theorem c6_media_downloaded_iff (outcome : Nat → P2Outcome) (files : List String)
    (tracker : List Nat) (pv : ProgressData)
    (h : pv.media_downloaded = false) :
    ((runPhase2 outcome files tracker pv).progressVar.media_downloaded = true ↔
      ∀ i ∈ media_to_download tracker files, outcome i = P2Outcome.success) ∧
    (runPhase2 outcome files tracker pv).downloaded =
      (media_to_download tracker files).filter
        (fun i => outcome i == P2Outcome.success) := by
  have key : ∀ (l : List Nat),
      ((l.filter (fun i => outcome i == P2Outcome.success)).length = l.length ↔
        ∀ i ∈ l, outcome i = P2Outcome.success) := by
    intro l
    constructor
    · intro hl i hi
      have heq := (List.filter_sublist
        (p := fun i => outcome i == P2Outcome.success) l).eq_of_length hl
      have := List.filter_eq_self.mp heq i hi
      exact eq_of_beq this
    · intro ha
      rw [List.filter_eq_self.mpr (fun i hi => beq_iff_eq.mpr (ha i hi))]
  by_cases ht : (media_to_download tracker files).isEmpty
  · have ht2 : media_to_download tracker files = [] := by
      simpa [List.isEmpty_iff] using ht
    simp [runPhase2, ht, ht2, phase2FlagTrue, save_progress]
  · rw [runPhase2]
    simp only [ht, Bool.false_eq_true, if_false]
    rw [phase2Process, phase2Process_char]
    simp only [List.nil_append, Nat.zero_add]
    by_cases hc :
        (((media_to_download tracker files).filter
          (fun i => outcome i == P2Outcome.success)).length =
            (media_to_download tracker files).length)
    · rw [if_pos hc]
      refine ⟨?_, rfl⟩
      constructor
      · intro _
        exact (key _).mp hc
      · intro _
        rfl
    · rw [if_neg hc]
      refine ⟨?_, rfl⟩
      rw [h]
      simp only [Bool.false_eq_true, false_iff]
      intro hall
      exact hc ((key _).mpr hall)

/-- C6 witness: the iff and the download list at a concrete Phase-2 run
(one tracked item, empty disk, all items succeeding). -/
theorem c6_witness :
    zeroProgress.media_downloaded = false ∧
    ((((runPhase2 (fun _ => P2Outcome.success) [] [5]
          zeroProgress).progressVar.media_downloaded = true) ↔
        ∀ i ∈ media_to_download [5] [],
          (fun _ => P2Outcome.success) i = P2Outcome.success) ∧
      (runPhase2 (fun _ => P2Outcome.success) [] [5] zeroProgress).downloaded =
        (media_to_download [5] []).filter
          (fun i => (fun _ => P2Outcome.success) i == P2Outcome.success)) :=
  ⟨rfl, c6_media_downloaded_iff (fun _ => P2Outcome.success) [] [5] zeroProgress rfl⟩

/-- The offer flag computed by `phase2Part` is exactly the source's entry
condition, whether or not the operator then opts in. -/
theorem phase2Part_fst (p : RunParams) (tracker : List Nat) (pv : ProgressData) :
    (phase2Part p tracker pv).1 =
      phase2Condition p.download_media_later tracker pv := by
  rw [phase2Part]
  split <;> rfl

/-- Projections of an assembled (non-crashed) run: the Phase-2 entry flag is
the source's condition over the tracker and progress record at the end of
Phase 1, which the trace also exposes. -/
theorem assembleRun_props (baseStore : Option ProgressData)
    (saves1 : List ProgressData) (written : List Nat) (j1 j2 : Option String)
    (sl : List Nat) (tracker : List Nat) (pv : ProgressData) (p : RunParams) :
    (assembleRun baseStore saves1 written j1 j2 sl tracker pv p).phase2Entered
        = phase2Condition p.download_media_later tracker pv ∧
    (assembleRun baseStore saves1 written j1 j2 sl tracker pv p).tracker = tracker ∧
    (assembleRun baseStore saves1 written j1 j2 sl tracker pv p).progressAtPhase2 = pv ∧
    (assembleRun baseStore saves1 written j1 j2 sl tracker pv p).crashed = false := by
  refine ⟨?_, rfl, rfl, rfl⟩
  simp [assembleRun, phase2Part_fst]

/-- Every run either crashes (the `NameError` path of the `finally` block)
or is an assembled trace. -/
theorem run_shape (msgs : List Msg) (ser : Msg → String)
    (store : Option ProgressData) (trackerInit : List Nat) (p : RunParams) :
    (download_messages_incremental msgs ser store trackerInit p).crashed = true ∨
    ∃ (saves1 : List ProgressData) (written : List Nat) (j1 j2 : Option String)
      (sl : List Nat) (tracker : List Nat) (pv : ProgressData),
      download_messages_incremental msgs ser store trackerInit p =
        assembleRun (baseStoreOf p.resume store) saves1 written j1 j2 sl
          tracker pv p := by
  simp only [download_messages_incremental]
  split
  · split
    · exact Or.inl rfl
    · exact Or.inr ⟨_, _, _, _, _, _, _, rfl⟩
  · exact Or.inr ⟨_, _, _, _, _, _, _, rfl⟩

/-- C2 amended: Phase 2 entry does not consult `text_complete`.  In every
non-crashing run, Phase 2 is offered exactly when media download was
deferred, the media inventory is non-empty and `media_downloaded` is false
— the state of `text_complete` at that moment is irrelevant, so an
attachment-download call can occur while `text_complete` is false. -/
theorem c2_amended_phase2_gating (msgs : List Msg) (ser : Msg → String)
    (store : Option ProgressData) (trackerInit : List Nat) (p : RunParams)
    (h : (download_messages_incremental msgs ser store trackerInit p).crashed
        = false) :
    (download_messages_incremental msgs ser store trackerInit p).phase2Entered
      = phase2Condition p.download_media_later
          (download_messages_incremental msgs ser store trackerInit p).tracker
          (download_messages_incremental msgs ser store trackerInit p).progressAtPhase2 := by
  rcases run_shape msgs ser store trackerInit p with hc | ⟨s1, w, j1, j2, sl, tr, pv, he⟩
  · rw [hc] at h
    cases h
  · rw [he]
    obtain ⟨h1, h2, h3, _⟩ := assembleRun_props (baseStoreOf p.resume store)
      s1 w j1 j2 sl tr pv p
    rw [h1, h2, h3]

/-- C2 witness: the amended gating equation at the concrete capped run of
the counterexample, whose Phase 1 does not crash. -/
theorem c2_witness :
    (download_messages_incremental msgsC2 serEmpty none [] paramsC2).crashed
        = false ∧
    (download_messages_incremental msgsC2 serEmpty none [] paramsC2).phase2Entered
      = phase2Condition paramsC2.download_media_later
          (download_messages_incremental msgsC2 serEmpty none [] paramsC2).tracker
          (download_messages_incremental msgsC2 serEmpty none []
            paramsC2).progressAtPhase2 :=
  ⟨by decide, c2_amended_phase2_gating msgsC2 serEmpty none [] paramsC2 (by decide)⟩

/-- Message processing changes the counters, the sink contents and the
offset, but never the break flag or the pending flood schedule; the offset
becomes the processed message's id. -/
theorem stepMsg_proj (ser : Msg → String) (s : LoopState) (bc : Nat) (m : Msg) :
    (stepMsg ser (s, bc) m).2 = bc + 1 ∧
    (stepMsg ser (s, bc) m).1.written = s.written ++ [m.id] ∧
    (stepMsg ser (s, bc) m).1.total = s.total + 1 ∧
    (stepMsg ser (s, bc) m).1.offset_id = m.id ∧
    (stepMsg ser (s, bc) m).1.finished = s.finished ∧
    (stepMsg ser (s, bc) m).1.floods = s.floods := by
  by_cases h25 : (bc + 1) % 25 = 0 <;>
    simp [stepMsg, doSave, h25]

/-- A batch-loop save changes only the save log and the `progress` local. -/
theorem doSave_proj (s : LoopState) :
    (doSave s).written = s.written ∧ (doSave s).total = s.total ∧
    (doSave s).offset_id = s.offset_id ∧ (doSave s).finished = s.finished ∧
    (doSave s).floods = s.floods ∧ (doSave s).tracker = s.tracker ∧
    (doSave s).sleeps = s.sleeps :=
  ⟨rfl, rfl, rfl, rfl, rfl, rfl, rfl⟩

/-- Characterisation of processing one whole batch: `batch_count` counts the
records, the written ids are appended in order, the total grows by the batch
size, the offset follows the last processed id, and the break flag and flood
schedule are untouched. -/
theorem foldl_stepMsg_char (ser : Msg → String) :
    ∀ (batch : List Msg) (s : LoopState) (bc : Nat),
      (batch.foldl (stepMsg ser) (s, bc)).2 = bc + batch.length ∧
      (batch.foldl (stepMsg ser) (s, bc)).1.written
          = s.written ++ batch.map (fun m => m.id) ∧
      (batch.foldl (stepMsg ser) (s, bc)).1.total = s.total + batch.length ∧
      (batch.foldl (stepMsg ser) (s, bc)).1.offset_id
          = batch.foldl (fun _ m => m.id) s.offset_id ∧
      (batch.foldl (stepMsg ser) (s, bc)).1.finished = s.finished ∧
      (batch.foldl (stepMsg ser) (s, bc)).1.floods = s.floods
  | [], s, bc => by simp
  | m :: batch, s, bc => by
      obtain ⟨h2, hw, ht, ho, hf, hfl⟩ := stepMsg_proj ser s bc m
      have ih := foldl_stepMsg_char ser batch (stepMsg ser (s, bc) m).1
        (stepMsg ser (s, bc) m).2
      simp only [Prod.mk.eta] at ih
      obtain ⟨i2, iw, it, io, ifin, ifl⟩ := ih
      rw [List.foldl_cons, List.foldl_cons]
      refine ⟨?_, ?_, ?_, ?_, ?_, ?_⟩
      · rw [i2, h2]
        simp [Nat.add_assoc, Nat.add_comm 1 batch.length]
      · rw [iw, hw]
        simp
      · rw [it, ht]
        simp [Nat.add_assoc, Nat.add_comm 1 batch.length]
      · rw [io, ho]
      · rw [ifin, hf]
      · rw [ifl, hfl]

/-- Folding "keep the newest id" over a non-empty batch yields the id of
its last element. -/
theorem foldl_last_id :
    ∀ (batch : List Msg) (z : Nat) (h : batch ≠ []),
      batch.foldl (fun _ m => m.id) z = (batch.getLast h).id
  | [m], _, _ => by simp
  | m :: b :: bt, z, _ => by
      rw [List.foldl_cons, foldl_last_id (b :: bt) m.id (by simp)]
      rw [List.getLast_cons (by simp : (b : Msg) :: bt ≠ [])]

/-- The available records are a sublist of the remote source. -/
theorem availMsgs_sublist (msgs : List Msg) (off : Nat) :
    List.Sublist (availMsgs msgs off) msgs := by
  unfold availMsgs
  split
  · exact List.Sublist.refl _
  · exact List.filter_sublist msgs

/-- With a positive offset, every available record is older than it. -/
theorem availMsgs_mem_lt (msgs : List Msg) (off : Nat) (m : Msg)
    (hoff : off ≠ 0) (h : m ∈ availMsgs msgs off) : m.id < off := by
  unfold availMsgs at h
  rw [if_neg hoff] at h
  simp only [List.mem_filter, decide_eq_true_eq] at h
  exact h.2

/-- A reached cap means an effective `max_messages` at or below the total. -/
theorem capReached_true_iff (mx : Option Nat) (total : Nat)
    (h : capReached mx total = true) :
    ∃ m, mx = some m ∧ m ≠ 0 ∧ m ≤ total := by
  cases mx with
  | none => exact absurd h (by simp [capReached])
  | some m =>
      by_cases hm : m = 0
      · rw [capReached, if_pos hm] at h
        cases h
      · rw [capReached, if_neg hm] at h
        exact ⟨m, rfl, hm, of_decide_eq_true h⟩

/-- An unreached cap means no effective cap or room below it. -/
theorem capReached_false_some (m total : Nat)
    (h : capReached (some m) total = false) : m = 0 ∨ total < m := by
  by_cases hm : m = 0
  · exact Or.inl hm
  · rw [capReached, if_neg hm] at h
    right
    by_contra hc
    rw [decide_eq_true (by omega : m ≤ total)] at h
    cases h

/-- Below the cap, the requested batch size is positive. -/
theorem currentBatchSize_pos (bs : Nat) (mx : Option Nat) (total : Nat)
    (hbs : 0 < bs) (hcap : capReached mx total = false) :
    0 < currentBatchSize bs mx total := by
  cases mx with
  | none => exact hbs
  | some m =>
      by_cases hm : m = 0
      · rw [currentBatchSize, if_pos hm]
        exact hbs
      · rw [currentBatchSize, if_neg hm]
        rcases capReached_false_some m total hcap with h0 | hlt
        · exact absurd h0 hm
        · exact lt_min hbs (by omega)

/-- No available records means nothing is expected to be written. -/
theorem expectedWritten_nil_of_avail (msgs : List Msg) (off total : Nat)
    (mx : Option Nat) (h : availMsgs msgs off = []) :
    expectedWritten msgs off total mx = [] := by
  unfold expectedWritten
  cases mx with
  | none => simp [h]
  | some m => by_cases hm : m = 0 <;> simp [h, hm]

/-- At or beyond the cap, nothing is expected to be written. -/
theorem expectedWritten_nil_of_cap (msgs : List Msg) (off total m : Nat)
    (h0 : m ≠ 0) (hle : m ≤ total) :
    expectedWritten msgs off total (some m) = [] := by
  unfold expectedWritten
  simp [h0, Nat.sub_eq_zero_of_le hle]

/-- In a strictly descending list, the records older than the last element
of the first `lim` records are exactly the records after those `lim`. -/
theorem sorted_filter_lt_getLast_take (A : List Msg) (lim : Nat)
    (hApw : A.Pairwise (fun a b => b.id < a.id))
    (hne : A.take lim ≠ []) (g : Msg) (hg : (A.take lim).getLast hne = g) :
    A.filter (fun m => decide (m.id < g.id)) = A.drop lim := by
  have hd : (A.take lim).dropLast ++ [g] = A.take lim := by
    rw [← hg]
    exact List.dropLast_append_getLast hne
  have hA2 : A = (A.take lim).dropLast ++ ([g] ++ A.drop lim) := by
    rw [← List.append_assoc, hd, List.take_append_drop]
  obtain ⟨hpL, hpgD, hrel⟩ := List.pairwise_append.mp (hA2 ▸ hApw)
  rw [List.singleton_append] at hpgD
  have hgD : ∀ y ∈ A.drop lim, y.id < g.id := (List.pairwise_cons.mp hpgD).1
  have hLg : ∀ x ∈ (A.take lim).dropLast, g.id < x.id := fun x hx =>
    hrel x hx g (by simp)
  conv_lhs => rw [hA2]
  rw [List.filter_append, List.filter_append]
  have h1 : List.filter (fun m => decide (m.id < g.id)) (A.take lim).dropLast
      = [] :=
    List.filter_eq_nil_iff.mpr (fun a ha => by simpa using Nat.lt_asymm (hLg a ha))
  have h2 : List.filter (fun m => decide (m.id < g.id)) [g] = [] := by simp
  have h3 : List.filter (fun m => decide (m.id < g.id)) (A.drop lim)
      = A.drop lim :=
    List.filter_eq_self.mpr (fun y hy => by simpa using hgD y hy)
  rw [h1, h2, h3]
  simp

/-- After processing one batch, the records available below the new offset
(the last processed id) are exactly the old available records with the
batch removed. -/
theorem avail_drop (msgs : List Msg) (off lim : Nat)
    (hsort : msgs.Pairwise (fun a b => b.id < a.id))
    (hpos : ∀ m ∈ msgs, 0 < m.id)
    (hne : fetchBatch msgs lim off ≠ []) :
    availMsgs msgs ((fetchBatch msgs lim off).getLast hne).id
      = (availMsgs msgs off).drop lim := by
  have hApw : (availMsgs msgs off).Pairwise (fun a b => b.id < a.id) :=
    List.Pairwise.sublist (availMsgs_sublist msgs off) hsort
  have hlast_A : (fetchBatch msgs lim off).getLast hne ∈ availMsgs msgs off :=
    (List.take_sublist lim (availMsgs msgs off)).subset (List.getLast_mem hne)
  have hlast_msgs : (fetchBatch msgs lim off).getLast hne ∈ msgs :=
    (availMsgs_sublist msgs off).subset hlast_A
  have hlast_pos : 0 < ((fetchBatch msgs lim off).getLast hne).id :=
    hpos _ hlast_msgs
  have step2 := sorted_filter_lt_getLast_take (availMsgs msgs off) lim hApw hne
    ((fetchBatch msgs lim off).getLast hne) rfl
  by_cases hoff : off = 0
  · have hAeq : availMsgs msgs off = msgs := by
      rw [hoff]
      simp [availMsgs]
    rw [availMsgs, if_neg (by omega : ¬ ((fetchBatch msgs lim off).getLast hne).id = 0)]
    rw [hAeq] at step2 ⊢
    exact step2
  · have hlt : ((fetchBatch msgs lim off).getLast hne).id < off :=
      availMsgs_mem_lt msgs off _ hoff hlast_A
    have hAq : availMsgs msgs off
        = msgs.filter (fun m => decide (m.id < off)) := by
      rw [availMsgs, if_neg hoff]
    rw [availMsgs, if_neg (by omega : ¬ ((fetchBatch msgs lim off).getLast hne).id = 0)]
    rw [hAq] at step2
    rw [List.filter_filter] at step2
    rw [hAq]
    rw [← step2]
    refine List.filter_congr (fun a _ => ?_)
    by_cases ha : a.id < ((fetchBatch msgs lim off).getLast hne).id
    · have ha2 : a.id < off := by omega
      simp [ha, ha2]
    · simp [ha]

/-- One processed batch plus what is expected from the new offset and total
is exactly what was expected from the old offset and total — the combinator
behind "no record is skipped". -/
theorem expectedWritten_step (msgs : List Msg) (off total : Nat)
    (mx : Option Nat) (lim : Nat)
    (hsort : msgs.Pairwise (fun a b => b.id < a.id))
    (hpos : ∀ m ∈ msgs, 0 < m.id)
    (hmx : mx = none ∨ ∃ m, mx = some m ∧ (m = 0 ∨ (total < m ∧ lim ≤ m - total)))
    (hne : fetchBatch msgs lim off ≠ []) :
    (fetchBatch msgs lim off).map (fun x => x.id) ++
      expectedWritten msgs ((fetchBatch msgs lim off).getLast hne).id
        (total + (fetchBatch msgs lim off).length) mx
      = expectedWritten msgs off total mx := by
  have hdrop := avail_drop msgs off lim hsort hpos hne
  have hbatch : fetchBatch msgs lim off = (availMsgs msgs off).take lim := rfl
  have hwhole : fetchBatch msgs lim off ++ (availMsgs msgs off).drop lim
      = availMsgs msgs off := by
    rw [hbatch]
    exact List.take_append_drop lim (availMsgs msgs off)
  have hcap : ∀ (m : Nat), m ≠ 0 → total < m → lim ≤ m - total →
      fetchBatch msgs lim off ++
        ((availMsgs msgs off).drop lim).take
          (m - (total + (fetchBatch msgs lim off).length))
        = (availMsgs msgs off).take (m - total) := by
    intro m hm0 hlt hle
    have hsplit : m - total = lim + (m - total - lim) := by omega
    rw [hsplit, List.take_add, ← hbatch]
    by_cases hdnil : (availMsgs msgs off).drop lim = []
    · rw [hdnil, List.take_nil, List.take_nil]
    · have hlim_lt : lim < (availMsgs msgs off).length := by
        rcases Nat.lt_or_ge lim (availMsgs msgs off).length with h | h
        · exact h
        · exact absurd (List.drop_eq_nil_of_le h) hdnil
      have hk : (fetchBatch msgs lim off).length = lim := by
        rw [hbatch, List.length_take]
        omega
      rw [hk]
      have harith : m - (total + lim) = m - total - lim := by omega
      rw [harith]
  unfold expectedWritten
  rw [hdrop]
  rcases hmx with h | ⟨m, hm, hc⟩
  · subst h
    simp only []
    rw [← List.map_append, hwhole]
  · subst hm
    rcases hc with h0 | ⟨hlt, hle⟩
    · subst h0
      simp only [eq_self_iff_true, if_true]
      rw [← List.map_append, hwhole]
    · have hm0 : m ≠ 0 := by omega
      simp only [if_neg hm0]
      rw [← List.map_append, hcap m hm0 hlt hle]

/-- Unfolding the loop at a reached cap: it breaks immediately. -/
theorem phase1Loop_cap (ctx : Ctx) (n : Nat) (s : LoopState)
    (hcap : capReached ctx.max_messages s.total = true) :
    phase1Loop ctx (n + 1) s = { s with finished := true } := by
  simp only [phase1Loop]
  rw [if_pos hcap]

/-- A flood wait sleeps for the signalled seconds and the next iteration
retries with the very same offset, total and sink state. -/
theorem phase1Loop_flood (ctx : Ctx) (n : Nat) (s : LoopState) (w : Nat)
    (rest : List (Option Nat))
    (hcap : capReached ctx.max_messages s.total = false)
    (hfl : s.floods = some w :: rest) :
    phase1Loop ctx (n + 1) s =
      phase1Loop ctx n
        { s with floods := rest, sleeps := s.sleeps ++ [w],
                 batch_count := some 0 } := by
  simp only [phase1Loop]
  rw [if_neg (by simp [hcap]), hfl]

/-- Unfolding the loop at a fetch attempt (no pending flood signal). -/
theorem phase1Loop_fetch (ctx : Ctx) (n : Nat) (s : LoopState)
    (rest : List (Option Nat))
    (hcap : capReached ctx.max_messages s.total = false)
    (hfl : s.floods = [] ∧ rest = [] ∨ s.floods = none :: rest) :
    phase1Loop ctx (n + 1) s =
      (if ((fetchBatch ctx.msgs
              (currentBatchSize ctx.batch_size ctx.max_messages s.total)
              s.offset_id).foldl (stepMsg ctx.ser)
              ({ s with floods := rest, batch_count := some 0 }, 0)).2 = 0
       then
        { ((fetchBatch ctx.msgs
              (currentBatchSize ctx.batch_size ctx.max_messages s.total)
              s.offset_id).foldl (stepMsg ctx.ser)
              ({ s with floods := rest, batch_count := some 0 }, 0)).1 with
          batch_count := some ((fetchBatch ctx.msgs
              (currentBatchSize ctx.batch_size ctx.max_messages s.total)
              s.offset_id).foldl (stepMsg ctx.ser)
              ({ s with floods := rest, batch_count := some 0 }, 0)).2,
          finished := true }
       else
        phase1Loop ctx n (doSave
          { ((fetchBatch ctx.msgs
              (currentBatchSize ctx.batch_size ctx.max_messages s.total)
              s.offset_id).foldl (stepMsg ctx.ser)
              ({ s with floods := rest, batch_count := some 0 }, 0)).1 with
            batch_count := some ((fetchBatch ctx.msgs
              (currentBatchSize ctx.batch_size ctx.max_messages s.total)
              s.offset_id).foldl (stepMsg ctx.ser)
              ({ s with floods := rest, batch_count := some 0 }, 0)).2 })) := by
  rcases hfl with ⟨h1, h2⟩ | h1
  · subst h2
    simp only [phase1Loop]
    rw [if_neg (by simp [hcap]), h1]
  · simp only [phase1Loop]
    rw [if_neg (by simp [hcap]), h1]

/-- The fetch-attempt case of the no-skip argument, with the induction
hypothesis for the smaller fuel supplied explicitly. -/
theorem phase1_fetch_written_aux (ctx : Ctx)
    (hsort : ctx.msgs.Pairwise (fun a b => b.id < a.id))
    (hpos : ∀ m ∈ ctx.msgs, 0 < m.id)
    (hbs : 0 < ctx.batch_size) (n : Nat)
    (ih : ∀ s : LoopState, s.finished = false →
      (phase1Loop ctx n s).finished = true →
      (phase1Loop ctx n s).written =
        s.written ++ expectedWritten ctx.msgs s.offset_id s.total
          ctx.max_messages)
    (s : LoopState) (rest : List (Option Nat))
    (h0 : s.finished = false)
    (hcapf : capReached ctx.max_messages s.total = false)
    (hfl : s.floods = [] ∧ rest = [] ∨ s.floods = none :: rest)
    (hfin : (phase1Loop ctx (n + 1) s).finished = true) :
    (phase1Loop ctx (n + 1) s).written =
      s.written ++ expectedWritten ctx.msgs s.offset_id s.total
        ctx.max_messages := by
  rw [phase1Loop_fetch ctx n s rest hcapf hfl] at hfin ⊢
  obtain ⟨hc2, hcw, hct, hco, hcf, hcfl⟩ :=
    foldl_stepMsg_char ctx.ser
      (fetchBatch ctx.msgs (currentBatchSize ctx.batch_size ctx.max_messages s.total)
        s.offset_id)
      { s with floods := rest, batch_count := some 0 } 0
  set B := fetchBatch ctx.msgs
    (currentBatchSize ctx.batch_size ctx.max_messages s.total) s.offset_id with hB
  set F := B.foldl (stepMsg ctx.ser)
    ({ s with floods := rest, batch_count := some 0 }, 0) with hF
  by_cases hz : F.2 = 0
  · rw [if_pos hz] at hfin ⊢
    have hb0 : B.length = 0 := by omega
    have hbnil : B = [] := List.length_eq_zero.mp hb0
    have hlim := currentBatchSize_pos ctx.batch_size ctx.max_messages s.total hbs hcapf
    have htake : (availMsgs ctx.msgs s.offset_id).take
        (currentBatchSize ctx.batch_size ctx.max_messages s.total) = [] := hbnil
    have havail : availMsgs ctx.msgs s.offset_id = [] := by
      rcases List.take_eq_nil_iff.mp htake with h | h
      · omega
      · exact h
    rw [expectedWritten_nil_of_avail ctx.msgs s.offset_id s.total
      ctx.max_messages havail]
    have hre : ({ F.1 with batch_count := some F.2, finished := true } :
        LoopState).written = F.1.written := rfl
    rw [hre, hcw, hbnil]
    simp
  · rw [if_neg hz] at hfin ⊢
    have hlen0 : B.length ≠ 0 := by omega
    have hbne : B ≠ [] := fun hh => hlen0 (by rw [hh]; rfl)
    have hfin0 : (doSave { F.1 with batch_count := some F.2 }).finished = false := by
      have hre : (doSave { F.1 with batch_count := some F.2 }).finished
          = F.1.finished := rfl
      rw [hre, hcf]
      exact h0
    have hih := ih (doSave { F.1 with batch_count := some F.2 }) hfin0 hfin
    rw [hih]
    have hw2 : (doSave { F.1 with batch_count := some F.2 }).written
        = s.written ++ B.map (fun m => m.id) := by
      have hre : (doSave { F.1 with batch_count := some F.2 }).written
          = F.1.written := rfl
      rw [hre, hcw]
    have ht2 : (doSave { F.1 with batch_count := some F.2 }).total
        = s.total + B.length := by
      have hre : (doSave { F.1 with batch_count := some F.2 }).total
          = F.1.total := rfl
      rw [hre, hct]
    have ho2 : (doSave { F.1 with batch_count := some F.2 }).offset_id
        = (B.getLast hbne).id := by
      have hre : (doSave { F.1 with batch_count := some F.2 }).offset_id
          = F.1.offset_id := rfl
      rw [hre, hco]
      exact foldl_last_id B s.offset_id hbne
    rw [hw2, ht2, ho2, List.append_assoc]
    congr 1
    have hmx : ctx.max_messages = none ∨ ∃ m, ctx.max_messages = some m ∧
        (m = 0 ∨ (s.total < m ∧
          currentBatchSize ctx.batch_size ctx.max_messages s.total ≤ m - s.total)) := by
      cases hmm : ctx.max_messages with
      | none => exact Or.inl rfl
      | some m =>
          refine Or.inr ⟨m, rfl, ?_⟩
          rcases capReached_false_some m s.total (by rw [← hmm]; exact hcapf)
            with h0m | hlt
          · exact Or.inl h0m
          · refine Or.inr ⟨hlt, ?_⟩
            simp only [currentBatchSize]
            rw [if_neg (by omega : ¬ m = 0)]
            exact Nat.min_le_right _ _
    have hne2 : fetchBatch ctx.msgs
        (currentBatchSize ctx.batch_size ctx.max_messages s.total) s.offset_id
        ≠ [] := hbne
    exact expectedWritten_step ctx.msgs s.offset_id s.total
      ctx.max_messages (currentBatchSize ctx.batch_size ctx.max_messages s.total)
      hsort hpos hmx hne2

/-- No records are skipped: a Phase-1 loop run that terminates by `break`
(exhaustion or cap) has written exactly the ids of the records available
below its starting offset, up to the remaining cap — whatever the flood
schedule was. -/
theorem phase1Loop_written (ctx : Ctx)
    (hsort : ctx.msgs.Pairwise (fun a b => b.id < a.id))
    (hpos : ∀ m ∈ ctx.msgs, 0 < m.id)
    (hbs : 0 < ctx.batch_size) :
    ∀ (fuel : Nat) (s : LoopState), s.finished = false →
      (phase1Loop ctx fuel s).finished = true →
      (phase1Loop ctx fuel s).written =
        s.written ++ expectedWritten ctx.msgs s.offset_id s.total
          ctx.max_messages := by
  intro fuel
  induction fuel with
  | zero =>
      intro s h0 h1
      simp only [phase1Loop] at h1
      rw [h0] at h1
      cases h1
  | succ n ih =>
      intro s h0 hfin
      by_cases hcap : capReached ctx.max_messages s.total = true
      · rw [phase1Loop_cap ctx n s hcap] at hfin ⊢
        obtain ⟨m, hm, hm0, hle⟩ := capReached_true_iff _ _ hcap
        rw [hm, expectedWritten_nil_of_cap ctx.msgs s.offset_id s.total m hm0 hle]
        simp
      · have hcapf : capReached ctx.max_messages s.total = false := by
          revert hcap
          cases capReached ctx.max_messages s.total <;> simp
        rcases hfl : s.floods with _ | ⟨ow, rest⟩
        · exact phase1_fetch_written_aux ctx hsort hpos hbs n ih s []
            h0 hcapf (Or.inl ⟨hfl, rfl⟩) hfin
        · cases ow with
          | none =>
              exact phase1_fetch_written_aux ctx hsort hpos hbs n ih s rest
                h0 hcapf (Or.inr hfl) hfin
          | some w =>
              rw [phase1Loop_flood ctx n s w rest hcapf hfl] at hfin ⊢
              exact ih _ h0 hfin

/-- A Phase-2 item hit by a rate limit: the loop sleeps for the signalled
wait, attempts the item exactly once (the attempt trace is the remaining
list itself), does not download it, and leaves `media_downloaded` false. -/
theorem runPhase2_flood_skip (outcome : Nat → P2Outcome) (files : List String)
    (tracker : List Nat) (pv : ProgressData) (i w : Nat)
    (hpv : pv.media_downloaded = false)
    (hi : i ∈ media_to_download tracker files)
    (hout : outcome i = P2Outcome.flood w) :
    w ∈ (runPhase2 outcome files tracker pv).sleeps ∧
    i ∉ (runPhase2 outcome files tracker pv).downloaded ∧
    (runPhase2 outcome files tracker pv).attempts
        = media_to_download tracker files ∧
    (runPhase2 outcome files tracker pv).progressVar.media_downloaded
        = false := by
  have hne : ¬ (media_to_download tracker files).isEmpty = true := by
    rcases hmt : media_to_download tracker files with _ | ⟨a, l⟩
    · rw [hmt] at hi
      cases hi
    · simp
  have hnotall : ¬ (((media_to_download tracker files).filter
      (fun j => outcome j == P2Outcome.success)).length
        = (media_to_download tracker files).length) := by
    intro hl
    have heq := (List.filter_sublist (media_to_download tracker files)).eq_of_length hl
    have hall := List.filter_eq_self.mp heq i hi
    rw [hout] at hall
    simp at hall
  rw [runPhase2, if_neg hne, phase2Process, phase2Process_char]
  simp only [List.nil_append, Nat.zero_add]
  rw [if_neg hnotall]
  refine ⟨?_, ?_, rfl, hpv⟩
  · exact List.mem_filterMap.mpr ⟨i, hi, by rw [hout]⟩
  · intro hmem
    rcases List.mem_filter.mp hmem with ⟨-, hb⟩
    rw [hout] at hb
    simp at hb

/-- C3 amended: in Phase 1 a rate-limit signal makes the loop sleep for the
signalled wait and re-issue the identical request (same offset, total and
sink state), and no record is skipped — a finished run writes exactly the
available records under the cap, whatever the flood schedule.  In Phase 2,
a rate-limit signal makes the loop sleep for the signalled wait but the
item is skipped for this run: it is attempted once, not retried, not
downloaded, and `media_downloaded` stays false so the item remains in
future runs' remaining sets. -/
theorem c3_amended_rate_limit :
    (∀ (ctx : Ctx) (fuel : Nat) (s : LoopState) (w : Nat)
        (rest : List (Option Nat)),
        capReached ctx.max_messages s.total = false →
        s.floods = some w :: rest →
        phase1Loop ctx (fuel + 1) s =
          phase1Loop ctx fuel
            { s with floods := rest, sleeps := s.sleeps ++ [w],
                     batch_count := some 0 }) ∧
    (∀ (ctx : Ctx) (fuel : Nat) (s : LoopState),
        ctx.msgs.Pairwise (fun a b => b.id < a.id) →
        (∀ m ∈ ctx.msgs, 0 < m.id) →
        0 < ctx.batch_size →
        s.finished = false →
        (phase1Loop ctx fuel s).finished = true →
        (phase1Loop ctx fuel s).written =
          s.written ++ expectedWritten ctx.msgs s.offset_id s.total
            ctx.max_messages) ∧
    (∀ (outcome : Nat → P2Outcome) (files : List String) (tracker : List Nat)
        (pv : ProgressData) (i w : Nat),
        pv.media_downloaded = false →
        i ∈ media_to_download tracker files →
        outcome i = P2Outcome.flood w →
        w ∈ (runPhase2 outcome files tracker pv).sleeps ∧
        i ∉ (runPhase2 outcome files tracker pv).downloaded ∧
        (runPhase2 outcome files tracker pv).attempts
            = media_to_download tracker files ∧
        (runPhase2 outcome files tracker pv).progressVar.media_downloaded
            = false) :=
  ⟨fun ctx fuel s w rest hcap hfl => phase1Loop_flood ctx fuel s w rest hcap hfl,
   fun ctx fuel s hsort hpos hbs h0 hfin =>
     phase1Loop_written ctx hsort hpos hbs fuel s h0 hfin,
   fun outcome files tracker pv i w hpv hi hout =>
     runPhase2_flood_skip outcome files tracker pv i w hpv hi hout⟩

/-- C3 witness: the three amended statements applied at concrete inputs —
a flood-then-retry loop step, a finished two-message run writing exactly
the expected ids, and the concrete Phase-2 flood skip. -/
theorem c3_witness :
    (capReached none (initLoopState zeroProgress [] false [some 4]).total = false ∧
      (initLoopState zeroProgress [] false [some 4]).floods = some 4 :: [] ∧
      phase1Loop
          { msgs := [{ id := 30, has_media := false }], ser := serEmpty,
            batch_size := 1, max_messages := none } (0 + 1)
          (initLoopState zeroProgress [] false [some 4])
        = phase1Loop
            { msgs := [{ id := 30, has_media := false }], ser := serEmpty,
              batch_size := 1, max_messages := none } 0
            { initLoopState zeroProgress [] false [some 4] with
              floods := [],
              sleeps := (initLoopState zeroProgress [] false [some 4]).sleeps ++ [4],
              batch_count := some 0 }) ∧
    ((phase1Loop
        { msgs := [{ id := 30, has_media := false }], ser := serEmpty,
          batch_size := 1, max_messages := none } 3
        (initLoopState zeroProgress [] false [])).finished = true ∧
      (phase1Loop
        { msgs := [{ id := 30, has_media := false }], ser := serEmpty,
          batch_size := 1, max_messages := none } 3
        (initLoopState zeroProgress [] false [])).written =
        (initLoopState zeroProgress [] false []).written ++
          expectedWritten [{ id := 30, has_media := false }]
            (initLoopState zeroProgress [] false []).offset_id
            (initLoopState zeroProgress [] false []).total none) ∧
    (pvC3.media_downloaded = false ∧ 10 ∈ media_to_download [10, 20] [] ∧
      outcomeC3 10 = P2Outcome.flood 7 ∧
      (7 ∈ (runPhase2 outcomeC3 [] [10, 20] pvC3).sleeps ∧
        10 ∉ (runPhase2 outcomeC3 [] [10, 20] pvC3).downloaded ∧
        (runPhase2 outcomeC3 [] [10, 20] pvC3).attempts
            = media_to_download [10, 20] [] ∧
        (runPhase2 outcomeC3 [] [10, 20] pvC3).progressVar.media_downloaded
            = false)) :=
  ⟨⟨rfl, rfl,
    c3_amended_rate_limit.1
      { msgs := [{ id := 30, has_media := false }], ser := serEmpty,
        batch_size := 1, max_messages := none } 0
      (initLoopState zeroProgress [] false [some 4]) 4 [] rfl rfl⟩,
   ⟨by decide,
    c3_amended_rate_limit.2.1
      { msgs := [{ id := 30, has_media := false }], ser := serEmpty,
        batch_size := 1, max_messages := none } 3
      (initLoopState zeroProgress [] false []) (by decide) (by decide)
      (by decide) rfl (by decide)⟩,
   ⟨rfl, by decide, by decide,
    c3_amended_rate_limit.2.2 outcomeC3 [] [10, 20] pvC3 10 7 rfl (by decide)
      (by decide)⟩⟩

/-- The head of a nonempty chain list is reached by `lastSave`. -/
theorem getLast?_cons_lastSave :
    ∀ (l : List ProgressData) (root : ProgressData),
      (root :: l).getLast? = some (lastSave root l)
  | [], _ => rfl
  | a :: t, root => by
      have ih := getLast?_cons_lastSave t a
      rw [List.getLast?_cons_cons, ih]
      simp [lastSave, ih]

/-- Appending one record moves the last save to it. -/
theorem lastSave_append_one (root : ProgressData) (l : List ProgressData)
    (q : ProgressData) : lastSave root (l ++ [q]) = q := by
  simp [lastSave, List.getLast?_concat]

/-- The last save of a concatenation restarts from the first part's last. -/
theorem lastSave_append (root : ProgressData) (l1 l2 : List ProgressData) :
    lastSave root (l1 ++ l2) = lastSave (lastSave root l1) l2 := by
  cases hgl : l2.getLast? with
  | none =>
      have h2 : l2 = [] := by
        cases l2 with
        | nil => rfl
        | cons a t => rw [getLast?_cons_lastSave] at hgl; cases hgl
      rw [h2]
      simp [lastSave]
  | some r =>
      simp [lastSave, List.getLast?_append, hgl]

/-- Extending an `Rrel` chain by one related record. -/
theorem chain_append_one (root : ProgressData) (l : List ProgressData)
    (q : ProgressData) (hch : List.Chain' Rrel (root :: l))
    (hr : Rrel (lastSave root l) q) :
    List.Chain' Rrel (root :: (l ++ [q])) := by
  rw [show root :: (l ++ [q]) = (root :: l) ++ [q] from rfl]
  refine List.chain'_append.mpr ⟨hch, List.chain'_singleton q, ?_⟩
  intro x hx y hy
  rw [getLast?_cons_lastSave] at hx
  cases hx
  cases hy
  exact hr

/-- Gluing two `Rrel` chains at the persisted-record boundary. -/
theorem chain_glue (root mid : ProgressData) (l1 l2 : List ProgressData)
    (h1 : List.Chain' Rrel (root :: l1)) (hmid : mid = lastSave root l1)
    (h2 : List.Chain' Rrel (mid :: l2)) :
    List.Chain' Rrel (root :: (l1 ++ l2)) := by
  rw [show root :: (l1 ++ l2) = (root :: l1) ++ l2 from rfl]
  obtain ⟨hhead, htail⟩ := List.chain'_cons'.mp h2
  refine List.chain'_append.mpr ⟨h1, htail, ?_⟩
  intro x hx y hy
  rw [getLast?_cons_lastSave] at hx
  cases hx
  rw [← hmid]
  exact hhead y hy

/-- A batch-loop save preserves the loop invariant. -/
theorem doSave_inv (root : ProgressData) (s : LoopState) (h : LoopInv root s) :
    LoopInv root (doSave s) := by
  obtain ⟨hpv, htot, hoff, hch⟩ := h
  have hR : Rrel (lastSave root s.saves)
      (save_progress s.tracker (mkBatchRecord s)) := by
    constructor
    · exact htot
    · rcases hoff with h0 | ⟨hp, hle⟩
      · exact Or.inl h0
      · exact Or.inr hle
  have hsv : (doSave s).saves
      = s.saves ++ [save_progress s.tracker (mkBatchRecord s)] := rfl
  refine ⟨?_, ?_, ?_, ?_⟩
  · rw [hsv, lastSave_append_one]
    rfl
  · rw [hsv, lastSave_append_one]
    exact Nat.le_refl _
  · rw [hsv, lastSave_append_one]
    by_cases hz : s.offset_id = 0
    · exact Or.inl hz
    · exact Or.inr ⟨Nat.pos_of_ne_zero hz, Nat.le_refl _⟩
  · rw [hsv]
    exact chain_append_one root s.saves _ hch hR

/-- Processing one record preserves the loop invariant when its id is
positive and below the current offset (or the offset is still 0). -/
theorem stepMsg_inv (ser : Msg → String) (root : ProgressData) (s : LoopState)
    (bc : Nat) (m : Msg) (hmpos : 0 < m.id)
    (hlt : s.offset_id = 0 ∨ m.id < s.offset_id)
    (h : LoopInv root s) :
    LoopInv root (stepMsg ser (s, bc) m).1 := by
  obtain ⟨hpv, htot, hoff, hch⟩ := h
  have h1 : LoopInv root
      { s with tracker := parse_message_track s.tracker m true,
               jsonC := write_json_sink s.jsonC (ser m) s.is_first,
               is_first := false,
               written := s.written ++ [m.id],
               total := s.total + 1,
               offset_id := m.id } := by
    refine ⟨hpv, Nat.le_succ_of_le htot, ?_, hch⟩
    show (lastSave root s.saves).last_message_id = 0 ∨
        (0 < m.id ∧ m.id ≤ (lastSave root s.saves).last_message_id)
    rcases hoff with h0 | ⟨hp, hle⟩
    · exact Or.inl h0
    · rcases hlt with hz | hlt2
      · exact absurd hp (by omega)
      · exact Or.inr ⟨hmpos, by omega⟩
  by_cases h25 : (bc + 1) % 25 = 0
  · have hstep : (stepMsg ser (s, bc) m).1 = doSave
        { s with tracker := parse_message_track s.tracker m true,
                 jsonC := write_json_sink s.jsonC (ser m) s.is_first,
                 is_first := false,
                 written := s.written ++ [m.id],
                 total := s.total + 1,
                 offset_id := m.id } := by
      simp [stepMsg, h25]
    rw [hstep]
    exact doSave_inv root _ h1
  · have hstep : (stepMsg ser (s, bc) m).1 =
        { s with tracker := parse_message_track s.tracker m true,
                 jsonC := write_json_sink s.jsonC (ser m) s.is_first,
                 is_first := false,
                 written := s.written ++ [m.id],
                 total := s.total + 1,
                 offset_id := m.id } := by
      simp [stepMsg, h25]
    rw [hstep]
    exact h1

/-- A whole descending batch below the offset preserves the invariant. -/
theorem foldl_stepMsg_inv (ser : Msg → String) (root : ProgressData) :
    ∀ (batch : List Msg) (s : LoopState) (bc : Nat),
      batch.Pairwise (fun a b => b.id < a.id) →
      (∀ m ∈ batch, 0 < m.id) →
      (s.offset_id = 0 ∨ ∀ m ∈ batch, m.id < s.offset_id) →
      LoopInv root s →
      LoopInv root (batch.foldl (stepMsg ser) (s, bc)).1
  | [], _, _, _, _, _, h => h
  | m :: batch, s, bc, hpw, hpos, hbound, h => by
      have hm1 : 0 < m.id := hpos m (by simp)
      have hlt : s.offset_id = 0 ∨ m.id < s.offset_id := by
        rcases hbound with h0 | hb
        · exact Or.inl h0
        · exact Or.inr (hb m (by simp))
      have h1 := stepMsg_inv ser root s bc m hm1 hlt h
      have ho := (stepMsg_proj ser s bc m).2.2.2.1
      rw [List.foldl_cons]
      exact foldl_stepMsg_inv ser root batch (stepMsg ser (s, bc) m).1
        (stepMsg ser (s, bc) m).2 (hpw.of_cons)
        (fun x hx => hpos x (List.mem_cons_of_mem m hx))
        (Or.inr (fun x hx => by
          rw [ho]
          exact (List.pairwise_cons.mp hpw).1 x hx)) h1

/-- The `finally` block's save preserves the invariant: it re-saves the
`progress` local with only its flags changed. -/
theorem finSave_inv (dml setTc : Bool) (root : ProgressData) (s : LoopState)
    (h : LoopInv root s) : LoopInv root (finSave dml setTc s) := by
  obtain ⟨hpv, htot, hoff, hch⟩ := h
  have hqt : (finSave dml setTc s).progressVar.total_downloaded
      = (lastSave root s.saves).total_downloaded := by
    rw [← hpv]
    cases setTc <;> rfl
  have hql : (finSave dml setTc s).progressVar.last_message_id
      = (lastSave root s.saves).last_message_id := by
    rw [← hpv]
    cases setTc <;> rfl
  have hsv : (finSave dml setTc s).saves
      = s.saves ++ [(finSave dml setTc s).progressVar] := by
    cases setTc <;> rfl
  have hR : Rrel (lastSave root s.saves) (finSave dml setTc s).progressVar := by
    constructor
    · rw [hqt]
    · exact Or.inr (by rw [hql])
  refine ⟨?_, ?_, ?_, ?_⟩
  · rw [hsv, lastSave_append_one]
  · rw [hsv, lastSave_append_one]
    have hst : (finSave dml setTc s).total = s.total := by cases setTc <;> rfl
    rw [hst, hqt]
    exact htot
  · rw [hsv, lastSave_append_one]
    have hso : (finSave dml setTc s).offset_id = s.offset_id := by
      cases setTc <;> rfl
    rw [hql, hso]
    exact hoff
  · rw [hsv]
    exact chain_append_one root s.saves _ hch hR

/-- The whole `finally` block preserves the invariant (on the crash path it
changes nothing at all). -/
theorem finallyBlock_inv (dml tdc : Bool) (root : ProgressData) (s : LoopState)
    (h : LoopInv root s) : LoopInv root (finallyBlock dml tdc s).1 := by
  cases tdc with
  | true => exact finSave_inv dml true root s h
  | false =>
      rcases hbc : s.batch_count with _ | bc
      · have he : (finallyBlock dml false s).1 = s := by
          rw [finallyBlock]
          simp [hbc]
        rw [he]
        exact h
      · have he : (finallyBlock dml false s).1
            = finSave dml (decide (bc = 0)) s := by
          rw [finallyBlock]
          simp [hbc]
        rw [he]
        exact finSave_inv dml (decide (bc = 0)) root s h

/-- The fetch-attempt case of the invariant preservation. -/
theorem phase1_fetch_inv_aux (ctx : Ctx)
    (hsort : ctx.msgs.Pairwise (fun a b => b.id < a.id))
    (hpos : ∀ m ∈ ctx.msgs, 0 < m.id) (n : Nat)
    (ih : ∀ (s : LoopState) (root : ProgressData),
      LoopInv root s → LoopInv root (phase1Loop ctx n s))
    (s : LoopState) (rest : List (Option Nat)) (root : ProgressData)
    (hcapf : capReached ctx.max_messages s.total = false)
    (hfl : s.floods = [] ∧ rest = [] ∨ s.floods = none :: rest)
    (h : LoopInv root s) :
    LoopInv root (phase1Loop ctx (n + 1) s) := by
  rw [phase1Loop_fetch ctx n s rest hcapf hfl]
  have hsub : List.Sublist (fetchBatch ctx.msgs
      (currentBatchSize ctx.batch_size ctx.max_messages s.total) s.offset_id)
      (availMsgs ctx.msgs s.offset_id) :=
    List.take_sublist _ _
  have hbpw : (fetchBatch ctx.msgs
      (currentBatchSize ctx.batch_size ctx.max_messages s.total)
      s.offset_id).Pairwise (fun a b => b.id < a.id) :=
    List.Pairwise.sublist (hsub.trans (availMsgs_sublist ctx.msgs s.offset_id))
      hsort
  have hbpos : ∀ m ∈ fetchBatch ctx.msgs
      (currentBatchSize ctx.batch_size ctx.max_messages s.total) s.offset_id,
      0 < m.id := fun m hm =>
    hpos m ((hsub.trans (availMsgs_sublist ctx.msgs s.offset_id)).subset hm)
  have hbound : s.offset_id = 0 ∨ ∀ m ∈ fetchBatch ctx.msgs
      (currentBatchSize ctx.batch_size ctx.max_messages s.total) s.offset_id,
      m.id < s.offset_id := by
    by_cases hz : s.offset_id = 0
    · exact Or.inl hz
    · exact Or.inr (fun m hm =>
        availMsgs_mem_lt ctx.msgs s.offset_id m hz (hsub.subset hm))
  have hF := foldl_stepMsg_inv ctx.ser root
    (fetchBatch ctx.msgs (currentBatchSize ctx.batch_size ctx.max_messages s.total)
      s.offset_id)
    { s with floods := rest, batch_count := some 0 } 0 hbpw hbpos hbound h
  by_cases hz2 : ((fetchBatch ctx.msgs
      (currentBatchSize ctx.batch_size ctx.max_messages s.total)
      s.offset_id).foldl (stepMsg ctx.ser)
      ({ s with floods := rest, batch_count := some 0 }, 0)).2 = 0
  · rw [if_pos hz2]
    exact hF
  · rw [if_neg hz2]
    exact ih _ root (doSave_inv root _ hF)

/-- The Phase-1 loop preserves the save-chain invariant, whatever the fuel
and flood schedule. -/
theorem phase1Loop_inv (ctx : Ctx)
    (hsort : ctx.msgs.Pairwise (fun a b => b.id < a.id))
    (hpos : ∀ m ∈ ctx.msgs, 0 < m.id) :
    ∀ (fuel : Nat) (s : LoopState) (root : ProgressData),
      LoopInv root s → LoopInv root (phase1Loop ctx fuel s) := by
  intro fuel
  induction fuel with
  | zero =>
      intro s root h
      simpa only [phase1Loop] using h
  | succ n ih =>
      intro s root h
      by_cases hcap : capReached ctx.max_messages s.total = true
      · rw [phase1Loop_cap ctx n s hcap]
        exact h
      · have hcapf : capReached ctx.max_messages s.total = false := by
          revert hcap
          cases capReached ctx.max_messages s.total <;> simp
        rcases hfl : s.floods with _ | ⟨ow, rest⟩
        · exact phase1_fetch_inv_aux ctx hsort hpos n ih s [] root hcapf
            (Or.inl ⟨hfl, rfl⟩) h
        · cases ow with
          | none =>
              exact phase1_fetch_inv_aux ctx hsort hpos n ih s rest root hcapf
                (Or.inr hfl) h
          | some w =>
              rw [phase1Loop_flood ctx n s w rest hcapf hfl]
              exact ih _ root h

/-- The loop state built from the loaded record satisfies the invariant
rooted at that record. -/
theorem initLoopState_inv (p0 : ProgressData) (t : List Nat) (j : Bool)
    (fl : List (Option Nat)) : LoopInv p0 (initLoopState p0 t j fl) := by
  refine ⟨rfl, Nat.le_refl _, ?_, List.chain'_singleton _⟩
  by_cases hz : p0.last_message_id = 0
  · exact Or.inl hz
  · exact Or.inr ⟨Nat.pos_of_ne_zero hz, Nat.le_refl _⟩

/-- The media phase saves either nothing or the flag-only record. -/
theorem phase2Part_saves (p : RunParams) (tracker : List Nat)
    (pv : ProgressData) :
    (phase2Part p tracker pv).2.saves = [] ∨
    (phase2Part p tracker pv).2.saves = [phase2FlagTrue tracker pv] := by
  simp only [phase2Part, runPhase2]
  split
  · split
    · exact Or.inr rfl
    · split
      · exact Or.inr rfl
      · exact Or.inl rfl
  · exact Or.inl rfl

/-- Assembling the media phase onto a chained Phase-1 trace keeps the saved
records chained and the progress file at the last save. -/
theorem assembleRun_chain (baseStore : Option ProgressData)
    (saves1 : List ProgressData) (w : List Nat) (j1 j2 : Option String)
    (sl : List Nat) (tracker : List Nat) (pv : ProgressData) (p : RunParams)
    (hch : List.Chain' Rrel (storeRec baseStore :: saves1))
    (hpv : pv = lastSave (storeRec baseStore) saves1) :
    List.Chain' Rrel (storeRec baseStore ::
      (assembleRun baseStore saves1 w j1 j2 sl tracker pv p).saves) ∧
    storeRec (assembleRun baseStore saves1 w j1 j2 sl tracker pv p).finalStore
      = lastSave (storeRec baseStore)
          (assembleRun baseStore saves1 w j1 j2 sl tracker pv p).saves := by
  have hsaves : (assembleRun baseStore saves1 w j1 j2 sl tracker pv p).saves
      = saves1 ++ (phase2Part p tracker pv).2.saves := rfl
  have hfs : (assembleRun baseStore saves1 w j1 j2 sl tracker pv p).finalStore
      = (match (saves1 ++ (phase2Part p tracker pv).2.saves).getLast? with
         | some r => some r
         | none => baseStore) := rfl
  rcases phase2Part_saves p tracker pv with h | h
  · rw [hsaves, hfs, h, List.append_nil]
    refine ⟨hch, ?_⟩
    cases hgl : saves1.getLast? with
    | none =>
        have hnil : saves1 = [] := by
          cases saves1 with
          | nil => rfl
          | cons a t =>
              rw [getLast?_cons_lastSave] at hgl
              cases hgl
        rw [hnil]
        rfl
    | some r =>
        simp [lastSave, storeRec, hgl]
  · rw [hsaves, hfs, h]
    constructor
    · refine chain_append_one (storeRec baseStore) saves1 _ hch ?_
      rw [← hpv]
      exact ⟨Nat.le_refl _, Or.inr (Nat.le_refl _)⟩
    · rw [lastSave_append_one]
      simp [List.getLast?_concat, storeRec]

/-- One resumed run keeps the job's saved records `Rrel`-chained out of the
loaded record, and leaves the progress file holding the last save (or
untouched when nothing was saved). -/
theorem run_chain (msgs : List Msg) (ser : Msg → String)
    (hsort : msgs.Pairwise (fun a b => b.id < a.id))
    (hpos : ∀ m ∈ msgs, 0 < m.id)
    (store : Option ProgressData) (p : RunParams) (hres : p.resume = true) :
    List.Chain' Rrel (storeRec store ::
      (download_messages_incremental msgs ser store [] p).saves) ∧
    storeRec (download_messages_incremental msgs ser store [] p).finalStore
      = lastSave (storeRec store)
          (download_messages_incremental msgs ser store [] p).saves := by
  have hbase : baseStoreOf p.resume store = store := by
    rw [hres]
    rfl
  have hld : loadOrInit p.resume store [] = load_progress store [] := by
    rw [hres]
    rfl
  have hp0 : (load_progress store []).1 = storeRec store := by
    cases store <;> rfl
  simp only [download_messages_incremental, hbase, hld]
  by_cases hph : (!(load_progress store []).1.media_downloaded &&
      !(decide ((load_progress store []).1.last_message_id ≤ 10) &&
        decide (0 < (load_progress store []).1.total_downloaded))) = true
  · rw [if_pos hph]
    have hinv0 : LoopInv (storeRec store)
        (initLoopState (load_progress store []).1 (load_progress store []).2
          (jsonActiveFor p.save_format) p.floods) := by
      rw [hp0]
      exact initLoopState_inv (storeRec store) _ _ _
    have hinv : LoopInv (storeRec store)
        ((finallyBlock p.download_media_later false
          (phase1Loop
            { msgs := msgs, ser := ser, batch_size := p.batch_size,
              max_messages := p.max_messages } p.fuel
            (initLoopState (load_progress store []).1 (load_progress store []).2
              (jsonActiveFor p.save_format) p.floods))).1) :=
      finallyBlock_inv p.download_media_later false _ _
        (phase1Loop_inv
          { msgs := msgs, ser := ser, batch_size := p.batch_size,
            max_messages := p.max_messages } hsort hpos p.fuel _ _ hinv0)
    obtain ⟨hpv2, htot2, hoff2, hch2⟩ := hinv
    by_cases hcr : (finallyBlock p.download_media_later false
        (phase1Loop
          { msgs := msgs, ser := ser, batch_size := p.batch_size,
            max_messages := p.max_messages } p.fuel
          (initLoopState (load_progress store []).1 (load_progress store []).2
            (jsonActiveFor p.save_format) p.floods))).2 = true
    · rw [if_pos hcr]
      refine ⟨hch2, ?_⟩
      cases hgl : ((finallyBlock p.download_media_later false
          (phase1Loop
            { msgs := msgs, ser := ser, batch_size := p.batch_size,
              max_messages := p.max_messages } p.fuel
            (initLoopState (load_progress store []).1 (load_progress store []).2
              (jsonActiveFor p.save_format) p.floods))).1).saves.getLast? with
      | none => simp [lastSave, storeRec, hgl]
      | some r => simp [lastSave, storeRec, hgl]
    · rw [if_neg hcr]
      exact assembleRun_chain store _ _ _ _ _ _ _ p hch2 hpv2
  · rw [if_neg hph]
    refine assembleRun_chain store [] [] none none []
      (load_progress store []).2 (load_progress store []).1 p
      (List.chain'_singleton _) ?_
    rw [hp0]
    rfl

/-- Across any sequence of resumed runs of one job, all saved records are
`Rrel`-chained out of the initial store content, and the progress file
always holds the last save. -/
theorem runMany_chain (msgs : List Msg) (ser : Msg → String)
    (hsort : msgs.Pairwise (fun a b => b.id < a.id))
    (hpos : ∀ m ∈ msgs, 0 < m.id) :
    ∀ (params : List RunParams) (st : Option ProgressData),
      (∀ q ∈ params, q.resume = true) →
      List.Chain' Rrel (storeRec st :: (runMany msgs ser params st).allSaves) ∧
      storeRec (runMany msgs ser params st).store
        = lastSave (storeRec st) (runMany msgs ser params st).allSaves
  | [], st, _ => ⟨List.chain'_singleton _, rfl⟩
  | q :: ps, st, hres => by
      obtain ⟨hc1, hf1⟩ := run_chain msgs ser hsort hpos st q (hres q (by simp))
      obtain ⟨hc2, hf2⟩ := runMany_chain msgs ser hsort hpos ps
        (download_messages_incremental msgs ser st [] q).finalStore
        (fun r hr => hres r (List.mem_cons_of_mem q hr))
      have hall : (runMany msgs ser (q :: ps) st).allSaves
          = (download_messages_incremental msgs ser st [] q).saves ++
            (runMany msgs ser ps
              (download_messages_incremental msgs ser st [] q).finalStore).allSaves := rfl
      have hst : (runMany msgs ser (q :: ps) st).store
          = (runMany msgs ser ps
              (download_messages_incremental msgs ser st [] q).finalStore).store := rfl
      rw [hall, hst]
      constructor
      · exact chain_glue _ _ _ _ hc1 hf1 hc2
      · rw [lastSave_append, ← hf1]
        exact hf2

/-- C4 amended: over a fixed remote source in strictly decreasing-id order,
the records a job saves across any sequence of resumed runs form a chain in
which `total_downloaded` never decreases, and `last_message_id` never
increases except immediately after a save that predates any committed
message (`last_message_id = 0`). -/
theorem c4_amended_monotonicity (msgs : List Msg) (ser : Msg → String)
    (params : List RunParams)
    (hsort : msgs.Pairwise (fun a b => b.id < a.id))
    (hpos : ∀ m ∈ msgs, 0 < m.id)
    (hres : ∀ q ∈ params, q.resume = true) :
    List.Chain' Rrel
      (zeroProgress :: (runMany msgs ser params none).allSaves) :=
  (runMany_chain msgs ser hsort hpos params none hres).1

/-- C4 witness: the amended chain at the two-run counterexample input
(flood-interrupted fresh run, then a completing resumed run). -/
theorem c4_witness :
    (msgsC4.Pairwise (fun a b => b.id < a.id) ∧ (∀ m ∈ msgsC4, 0 < m.id) ∧
      (∀ q ∈ [pC4a, pC4b], q.resume = true)) ∧
    List.Chain' Rrel
      (zeroProgress :: (runMany msgsC4 serEmpty [pC4a, pC4b] none).allSaves) :=
  ⟨⟨by decide, by decide, by decide⟩,
   c4_amended_monotonicity msgsC4 serEmpty [pC4a, pC4b] (by decide) (by decide)
     (by decide)⟩
